import Mathlib

/-!
Verification of the quantitative analytics core of
`alphatic_portfolio_app.py` (portinthestorm).

Modelling conventions, used throughout:

* A pandas/NumPy float value is modelled exactly by the type `F` below:
  NaN, a signed infinity, or a finite value kept as an exact rational.
  Arithmetic follows the IEEE-754 special-value rules with exact rational
  arithmetic in place of binary rounding (so decimal constants such as
  0.05 are the exact rationals they denote; the one-ulp perturbations of
  binary floats do not affect any ordering or branch stated here).
* The two irrational numeric primitives the code uses - the square root
  (numpy.sqrt, also inside pandas `std`) and the float power `**` - are
  abstracted as explicit function parameters `sqrtq : Rat -> Rat` and
  `powq : Rat -> Rat -> Rat`; every theorem states the properties of
  these routines that it actually needs (for example that the square
  root of 0 is 0, or that square roots of nonnegatives are nonnegative).
* A Python function that can raise for some input is modelled with an
  `Option` result: `none` is the raising outcome.
* pandas reductions (`sum`, `mean`, `min`, `median`) skip NaN entries,
  and comparisons involving NaN are false, while `!=` against NaN is
  true; all of this is modelled explicitly.
-/

/-- A pandas/NumPy float value: NaN, +infinity, -infinity, or a finite
value, the finite value kept as an exact rational. -/
inductive F where
  | nan : F
  | inf : F
  | ninf : F
  | fin (q : ℚ) : F
deriving DecidableEq

/-- True exactly on NaN (models `pd.isna` on a float). -/
def F.isNan : F → Bool
  | .nan => true
  | _ => false

/-- IEEE negation. -/
def F.neg : F → F
  | .nan => .nan
  | .inf => .ninf
  | .ninf => .inf
  | .fin q => .fin (-q)

/-- IEEE addition (exact in the finite case). -/
def F.add : F → F → F
  | .nan, _ => .nan
  | _, .nan => .nan
  | .inf, .ninf => .nan
  | .ninf, .inf => .nan
  | .inf, _ => .inf
  | _, .inf => .inf
  | .ninf, _ => .ninf
  | _, .ninf => .ninf
  | .fin a, .fin b => .fin (a + b)

/-- IEEE subtraction. -/
def F.sub (a b : F) : F := F.add a (F.neg b)

/-- IEEE multiplication: 0 times an infinity is NaN. -/
def F.mul : F → F → F
  | .nan, _ => .nan
  | _, .nan => .nan
  | .inf, .inf => .inf
  | .inf, .ninf => .ninf
  | .ninf, .inf => .ninf
  | .ninf, .ninf => .inf
  | .inf, .fin b => if b = 0 then .nan else if 0 < b then .inf else .ninf
  | .fin a, .inf => if a = 0 then .nan else if 0 < a then .inf else .ninf
  | .ninf, .fin b => if b = 0 then .nan else if 0 < b then .ninf else .inf
  | .fin a, .ninf => if a = 0 then .nan else if 0 < a then .ninf else .inf
  | .fin a, .fin b => .fin (a * b)

/-- IEEE division under NumPy semantics: a nonzero finite value divided by
zero is a signed infinity, 0/0 and inf/inf are NaN. The rationals have no
signed zero, so the sign of a zero divisor is taken as positive. -/
def F.div : F → F → F
  | .nan, _ => .nan
  | _, .nan => .nan
  | .inf, .inf => .nan
  | .inf, .ninf => .nan
  | .ninf, .inf => .nan
  | .ninf, .ninf => .nan
  | .inf, .fin b => if 0 ≤ b then .inf else .ninf
  | .ninf, .fin b => if 0 ≤ b then .ninf else .inf
  | .fin _, .inf => .fin 0
  | .fin _, .ninf => .fin 0
  | .fin a, .fin b =>
      if b = 0 then (if a = 0 then .nan else if 0 < a then .inf else .ninf)
      else .fin (a / b)

/-- IEEE absolute value. -/
def F.abs : F → F
  | .nan => .nan
  | .inf => .inf
  | .ninf => .inf
  | .fin q => .fin |q|

/-- IEEE strict less-than as a Boolean: false whenever NaN is involved. -/
def F.blt : F → F → Bool
  | .nan, _ => false
  | _, .nan => false
  | .inf, _ => false
  | _, .inf => true
  | .ninf, .ninf => false
  | .ninf, .fin _ => true
  | .fin _, .ninf => false
  | .fin a, .fin b => decide (a < b)

/-- IEEE less-or-equal as a Boolean: false whenever NaN is involved. -/
def F.ble : F → F → Bool
  | .nan, _ => false
  | _, .nan => false
  | _, .inf => true
  | .inf, _ => false
  | .ninf, _ => true
  | .fin _, .ninf => false
  | .fin a, .fin b => decide (a ≤ b)

/-- IEEE not-equal as a Boolean (Python `x != y` on floats): true whenever
NaN is involved. This is the comparison the source uses in its
divide-by-zero guards, so a NaN denominator passes those guards. -/
def F.bne : F → F → Bool
  | .nan, _ => true
  | _, .nan => true
  | .fin a, .fin b => decide (a ≠ b)
  | x, y => decide (x ≠ y)

/-- Sum of a list of rationals (no NaN can occur). -/
def sumQ (l : List ℚ) : ℚ := l.sum

/-- Arithmetic mean of a list of rationals; junk value 0 on the empty
list, every use of it is guarded by a nonempty window. -/
def meanQ (l : List ℚ) : ℚ := l.sum / (l.length : ℚ)

/-- Sample variance with ddof = 1 (the pandas default); junk value on
lists of length at most 1, every use is guarded by `stdF`. -/
def varQ (l : List ℚ) : ℚ :=
  (l.map (fun x => (x - meanQ l) ^ 2)).sum / ((l.length : ℚ) - 1)

/-- pandas `Series.std()` (ddof = 1): NaN when fewer than two
observations, otherwise the square root of the sample variance, the
square-root routine abstracted as `sqrtq`. -/
def stdF (sqrtq : ℚ → ℚ) (l : List ℚ) : F :=
  if l.length ≤ 1 then .nan else .fin (sqrtq (varQ l))

/-- pandas sum over float values (skipna = true): NaN entries are
dropped, the rest are added left to right from 0. -/
def fsum (l : List F) : F :=
  (l.filter (fun x => !x.isNan)).foldl F.add (F.fin 0)

/-- pandas mean over float values (skipna = true): NaN when no value
remains after dropping NaNs. -/
def fmean (l : List F) : F :=
  let vs := l.filter (fun x => !x.isNan)
  if vs.length = 0 then .nan
  else F.div (vs.foldl F.add (F.fin 0)) (.fin (vs.length : ℚ))

/-- pandas min over float values (skipna = true): NaN when no value
remains after dropping NaNs. -/
def fmin2 (a b : F) : F := if F.ble a b then a else b

/-- pandas `Series.min()` with skipna. -/
def fminSkip (l : List F) : F :=
  match l.filter (fun x => !x.isNan) with
  | [] => .nan
  | x :: xs => xs.foldl fmin2 x

/-- The ordering used to sort float values once NaNs are dropped. -/
def fleP (a b : F) : Prop := F.ble a b = true

instance : DecidableRel fleP := fun x y => inferInstanceAs (Decidable (F.ble x y = true))

/-- pandas `Series.median()` (skipna): sort the non-NaN values, take the
middle one, or the average of the two middle ones. -/
def fmedian (l : List F) : F :=
  let vs := List.insertionSort fleP (l.filter (fun x => !x.isNan))
  if vs.length = 0 then .nan
  else if vs.length % 2 = 1 then vs.getD (vs.length / 2) .nan
  else F.div (F.add (vs.getD (vs.length / 2 - 1) .nan) (vs.getD (vs.length / 2) .nan)) (.fin 2)

/-- The trailing window of length `w` ending at index `t` (inclusive). -/
def window (l : List α) (w t : ℕ) : List α := (l.take (t + 1)).drop (t + 1 - w)

/-- pandas `Series.rolling(w)` followed by a window statistic, with the
default `min_periods = w`: indices with fewer than `w` trailing
observations are NaN. The statistic `f` receives the full window. -/
def rollingF (w : ℕ) (f : List α → F) (l : List α) : List F :=
  (List.range l.length).map fun t => if t + 1 < w then .nan else f (window l w t)

/-- pandas `Series.diff()`: NaN at index 0, consecutive differences after. -/
def diffF : List ℚ → List F
  | [] => []
  | x :: xs => .nan :: List.zipWith (fun a b => F.fin (b - a)) (x :: xs) xs

/-- Cumulative products of (1 + r): pandas `(1 + returns).cumprod()`. -/
def cumprodGo (acc : ℚ) : List ℚ → List ℚ
  | [] => []
  | x :: xs => (acc * (1 + x)) :: cumprodGo (acc * (1 + x)) xs

/-- `(1 + returns).cumprod()` as a list of exact rationals. -/
def cumReturns (l : List ℚ) : List ℚ := cumprodGo 1 l

/-- Running maxima: pandas `.expanding().max()` over a NaN-free series. -/
def runningMaxGo (acc : ℚ) : List ℚ → List ℚ
  | [] => []
  | x :: xs => max acc x :: runningMaxGo (max acc x) xs

/-- pandas `.expanding().max()`. -/
def runningMax : List ℚ → List ℚ
  | [] => []
  | x :: xs => x :: runningMaxGo x xs

/-- The per-date drawdown series `(cum - running_max) / running_max`,
a float division (0/0 when the running maximum is 0, hence NaN there). -/
def drawdownList (returns : List ℚ) : List F :=
  List.zipWith (fun c m => F.div (.fin (c - m)) (.fin m))
    (cumReturns returns) (runningMax (cumReturns returns))

/-! ## Return computation (source: `calculate_portfolio_returns`, lines 1240-1255)

A price matrix (`pandas.DataFrame`) is modelled as its list of rows (one
row of adjusted closes per date, one entry per asset); the frames the app
builds are rectangular. -/

/-- One row of `DataFrame.pct_change()`: elementwise `(cur - prev) / prev`
in float arithmetic. -/
def pctRow (prev cur : List ℚ) : List F :=
  List.zipWith (fun a b => F.div (.fin (b - a)) (.fin a)) prev cur

/-- `DataFrame.pct_change()`: the first row is all NaN, row `t` is the
elementwise relative change from row `t - 1`. -/
def pctChangeRows : List (List ℚ) → List (List F)
  | [] => []
  | r :: rs => r.map (fun _ => F.nan) :: List.zipWith pctRow (r :: rs) rs

/-- `DataFrame.dropna()`: drop every row that has a NaN entry. -/
def dropnaRows (rows : List (List F)) : List (List F) :=
  rows.filter (fun row => row.all (fun x => !x.isNan))

/-- Source `calculate_portfolio_returns(prices, weights)`: daily returns
by `pct_change().dropna()`, then the row-wise weighted sum
`(returns * weights).sum(axis=1)` (a pandas sum, hence skipna). -/
def calculate_portfolio_returns (prices : List (List ℚ)) (weights : List ℚ) : List F :=
  let returns := dropnaRows (pctChangeRows prices)
  returns.map (fun row => fsum (List.zipWith F.mul row (weights.map F.fin)))

/-! ## Portfolio optimizer (source: `optimize_portfolio`, lines 1258-1285) -/

/-- Square root lifted to float values (numpy.sqrt): NaN on negatives. -/
def fsqrt (sqrtq : ℚ → ℚ) : F → F
  | .nan => .nan
  | .inf => .inf
  | .ninf => .nan
  | .fin q => if q < 0 then .nan else .fin (sqrtq q)

/-- Column `j` of a float matrix. -/
def colF (rows : List (List F)) (j : ℕ) : List F := rows.map (fun r => r.getD j F.nan)

/-- Number of asset columns of a price matrix (`len(prices.columns)`). -/
def numCols (prices : List (List ℚ)) : ℕ := (prices.headD []).length

/-- pandas pairwise sample covariance (ddof = 1, complete pairs only):
NaN with fewer than two complete observation pairs. -/
def covF (xs ys : List F) : F :=
  let ps := (List.zip xs ys).filter (fun p => !p.1.isNan && !p.2.isNan)
  if ps.length ≤ 1 then .nan
  else
    let mx := fmean (ps.map (fun p => p.1))
    let my := fmean (ps.map (fun p => p.2))
    F.div (fsum (ps.map (fun p => F.mul (F.sub p.1 mx) (F.sub p.2 my))))
      (.fin ((ps.length : ℚ) - 1))

/-- What `scipy.optimize.minimize` reports back: the final point and the
convergence flag. -/
structure SolverResult where
  x : List ℚ
  success : Bool

/-- The shape of the external SLSQP solver: it receives the objective,
the starting point and the box bounds, and reports a `SolverResult`.
scipy is outside this repository, so the solver is a parameter; the
theorems state the contract assumed of it. -/
def SolveFn := (List ℚ → F) → List ℚ → List (ℚ × ℚ) → SolverResult

/-- Source `optimize_portfolio(prices, method='max_sharpe')`: estimates
annualized mean returns and covariance, builds the negated-Sharpe
objective, calls the solver from the equal-weight start with bounds
[0,1] per asset, and returns `result.x if result.success else
initial_guess`. `none` models the raising paths: zero asset columns
(the equal-weight guess divides by zero assets) and any method other
than `max_sharpe` (the local `result` is then unbound, a NameError). -/
def optimize_portfolio (sqrtq : ℚ → ℚ) (solver : SolveFn)
    (prices : List (List ℚ)) (method : String) : Option (List ℚ) :=
  let returns := dropnaRows (pctChangeRows prices)
  let n := numCols prices
  let meanReturns := (List.range n).map fun j => F.mul (fmean (colF returns j)) (.fin 252)
  let covMatrix :=
    (List.range n).map fun i => (List.range n).map fun j =>
      F.mul (covF (colF returns i) (colF returns j)) (.fin 252)
  if n = 0 then none
  else
    let negSharpe : List ℚ → F := fun w =>
      let wf := w.map F.fin
      let pret := fsum (List.zipWith F.mul meanReturns wf)
      let pvar := fsum (List.zipWith F.mul (covMatrix.map (fun row => fsum (List.zipWith F.mul row wf))) wf)
      F.neg (F.div pret (fsqrt sqrtq pvar))
    let bounds := List.replicate n ((0 : ℚ), (1 : ℚ))
    let initialGuess := List.replicate n ((1 : ℚ) / (n : ℚ))
    if method = "max_sharpe" then
      let result := solver negSharpe initialGuess bounds
      some (if result.success then result.x else initialGuess)
    else none

/-! ## Portfolio metrics (source: `calculate_portfolio_metrics`, lines 1320-1386) -/

/-- The record of metrics the source builds (the always-present fields;
alpha/beta are only added when a benchmark is supplied and are not
involved in any claim here). -/
structure PortfolioMetrics where
  totalReturn : ℚ
  annReturn : ℚ
  annVol : F
  sharpe : F
  sortino : F
  maxDrawdown : F
  calmar : F
  winRate : ℚ
deriving DecidableEq

/-- Source `calculate_portfolio_metrics(returns, risk_free_rate=0.02)`.
`none` models the raise on an empty series (`252 / len(returns)` is a
ZeroDivisionError). Every divide-by-zero guard is the Python float
comparison `denominator != 0`, which a NaN denominator passes. -/
def calculate_portfolio_metrics (sqrtq : ℚ → ℚ) (powq : ℚ → ℚ → ℚ)
    (returns : List ℚ) (riskFree : ℚ) : Option PortfolioMetrics :=
  if returns.length = 0 then none
  else
    let totalReturn := (returns.map (fun r => 1 + r)).prod - 1
    let annReturn := powq (1 + totalReturn) (252 / (returns.length : ℚ)) - 1
    let annVol := F.mul (stdF sqrtq returns) (.fin (sqrtq 252))
    let sharpe :=
      if F.bne annVol (.fin 0) then F.div (.fin (annReturn - riskFree)) annVol else .fin 0
    let downside := returns.filter (fun r => r < 0)
    let downsideStd := F.mul (stdF sqrtq downside) (.fin (sqrtq 252))
    let sortino :=
      if F.bne downsideStd (.fin 0) then F.div (.fin (annReturn - riskFree)) downsideStd
      else .fin 0
    let maxDrawdown := fminSkip (drawdownList returns)
    let calmar :=
      if F.bne maxDrawdown (.fin 0) then F.div (.fin annReturn) (F.abs maxDrawdown)
      else .fin 0
    let winRate := ((returns.filter (fun r => 0 < r)).length : ℚ) / (returns.length : ℚ)
    some ⟨totalReturn, annReturn, annVol, sharpe, sortino, maxDrawdown, calmar, winRate⟩

/-! ## Rolling regime classifier (source: `detect_market_regimes`, lines 1389-1426) -/

/-- The rolling annualized mean-return series
`returns.rolling(lookback).mean() * 252`. -/
def rollingAnnMean (lookback : ℕ) (returns : List ℚ) : List F :=
  rollingF lookback (fun w => .fin (meanQ w * 252)) returns

/-- The rolling annualized volatility series
`returns.rolling(lookback).std() * np.sqrt(252)`. -/
def rollingAnnVol (sqrtq : ℚ → ℚ) (lookback : ℕ) (returns : List ℚ) : List F :=
  rollingF lookback (fun w => F.mul (stdF sqrtq w) (.fin (sqrtq 252))) returns

/-- Source `detect_market_regimes(returns, lookback=60)`. The four mask
assignments overwrite the 'Sideways/Choppy' default; the masks are
pairwise disjoint, and the translation takes them in reverse assignment
order (last assignment wins). All threshold comparisons are float
comparisons, so a NaN rolling statistic satisfies none of them. `none`
models the raise on a zero window (pandas rejects `rolling(0)`). -/
def detect_market_regimes (sqrtq : ℚ → ℚ) (returns : List ℚ) (lookback : ℕ) :
    Option (List String) :=
  if lookback = 0 then none
  else
    let rollingReturns := rollingAnnMean lookback returns
    let rollingVol := rollingAnnVol sqrtq lookback returns
    let volMedian := fmedian rollingVol
    some ((List.range returns.length).map fun t =>
      let rr := rollingReturns.getD t .nan
      let rv := rollingVol.getD t .nan
      let returnPositive := F.blt (.fin (2 / 100)) rr
      let returnNegative := F.blt rr (.fin (-(2 / 100)))
      let volHigh := F.blt volMedian rv
      if returnNegative && volHigh then "Bear Market (High Vol)"
      else if returnNegative && !volHigh then "Bear Market (Low Vol)"
      else if returnPositive && volHigh then "Bull Market (High Vol)"
      else if returnPositive && !volHigh then "Bull Market (Low Vol)"
      else "Sideways/Choppy")

/-! ## Advisory regime (source: `detect_market_regime_enhanced`, lines 199-292)

The display strings in the source carry a decorative pictograph prefix
(stored double-encoded in the file); the model keeps the textual part of
each label. The `signals` list of display strings interpolates
decimal-formatted numbers and is presentation-only, so it is not part of
the record modelled here; every numeric and branching behaviour is. -/

/-- The fixed stocks/bonds/cash target allocation attached to a regime. -/
structure Allocation where
  stocks : ℕ
  bonds : ℕ
  cash : ℕ
deriving DecidableEq

/-- What `detect_market_regime_enhanced` returns (the `metrics` sub-dict
flattened into fields). -/
structure RegimeResult where
  regime : String
  confidence : String
  action : String
  allocation : Allocation
  color : String
  volatility : F
  momentum60d : F
  recentReturn20d : F
  recentReturn60d : F
  trend : String
  priceVsSma200 : Option F
deriving DecidableEq

/-- `prices.iloc[-k]` for a nonempty series (guarded at each use). -/
def ilocNeg (l : List ℚ) (k : ℕ) : ℚ := l.getD (l.length - k) 0

/-- Source lines 230-292: the regime-classification cascade (first
match wins) over the computed statistics, each regime with its fixed
confidence/action/allocation/color. -/
def regimeCascade (volatility momentum60d recentReturn20d recentReturn60d : F)
    (trend : String) (priceVsSma200 : Option F) : RegimeResult :=
  if F.blt (.fin (35 / 100)) volatility then
    ⟨"High Volatility / Crisis", "High",
      "Reduce equity exposure to 40-50%. Increase cash and defensive positions. Avoid new positions until volatility subsides.",
      ⟨45, 45, 10⟩, "error", volatility, momentum60d, recentReturn20d, recentReturn60d, trend, priceVsSma200⟩
  else if F.blt momentum60d (.fin (-(10 / 100))) && F.blt (.fin (25 / 100)) volatility then
    ⟨"Bear Market", if F.blt (.fin (15 / 100)) (F.abs momentum60d) then "High" else "Medium",
      "Reduce equity to 50-60%. Focus on quality, dividend-paying stocks. Consider defensive sectors.",
      ⟨55, 40, 5⟩, "error", volatility, momentum60d, recentReturn20d, recentReturn60d, trend, priceVsSma200⟩
  else if F.blt (.fin (15 / 100)) momentum60d && F.blt volatility (.fin (20 / 100)) then
    ⟨"Bull Market", "High",
      "Maintain 70-80% equity allocation. This is accumulation phase. Focus on growth and momentum.",
      ⟨75, 22, 3⟩, "success", volatility, momentum60d, recentReturn20d, recentReturn60d, trend, priceVsSma200⟩
  else if F.blt (.fin 0) momentum60d && F.blt (.fin 0) recentReturn20d then
    ⟨"Recovery", "Medium",
      "Gradually increase equity to 60-70%. Good time to add positions. Monitor for continued strength.",
      ⟨65, 30, 5⟩, "warning", volatility, momentum60d, recentReturn20d, recentReturn60d, trend, priceVsSma200⟩
  else
    ⟨"Neutral / Consolidation", "Medium",
      "Maintain balanced 60/40 portfolio. Wait for clearer directional signals before making changes.",
      ⟨60, 35, 5⟩, "info", volatility, momentum60d, recentReturn20d, recentReturn60d, trend, priceVsSma200⟩

/-- Source `detect_market_regime_enhanced(returns, prices)`: trailing
60-day annualized volatility, 60-day momentum and 20-day return, a
50/200-day SMA trend readout, then the classification cascade above. -/
def detect_market_regime_enhanced (sqrtq : ℚ → ℚ) (returns prices : List ℚ) : RegimeResult :=
  let volWindow := min 60 returns.length
  let volatility := F.mul (stdF sqrtq (returns.drop (returns.length - volWindow))) (.fin (sqrtq 252))
  let recentReturn20d :=
    if 20 ≤ prices.length then
      F.mul (F.sub (F.div (.fin (ilocNeg prices 1)) (.fin (ilocNeg prices 20))) (.fin 1)) (.fin 100)
    else .fin 0
  let recentReturn60d :=
    if 60 ≤ prices.length then
      F.mul (F.sub (F.div (.fin (ilocNeg prices 1)) (.fin (ilocNeg prices 60))) (.fin 1)) (.fin 100)
    else .fin 0
  let momentum60d := F.div recentReturn60d (.fin 100)
  let sma50 := rollingF 50 (fun w => .fin (meanQ w)) prices
  let sma200 := rollingF 200 (fun w => .fin (meanQ w)) prices
  let sma50Last := sma50.getD (sma50.length - 1) .nan
  let sma200Last := sma200.getD (sma200.length - 1) .nan
  let priceVsSma200 :=
    if 0 < sma200.length && !sma200Last.isNan then
      some (F.mul (F.sub (F.div (.fin (ilocNeg prices 1)) sma200Last) (.fin 1)) (.fin 100))
    else none
  let trend :=
    if 50 ≤ prices.length ∧ 200 ≤ prices.length then
      if F.blt sma200Last sma50Last then "Bullish"
      else if F.blt sma50Last sma200Last then "Bearish"
      else "Neutral"
    else "Insufficient Data"
  regimeCascade volatility momentum60d recentReturn20d recentReturn60d trend priceVsSma200

/-! ## Technical indicators and the signal scorer
(source: `calculate_rsi` .. `calculate_sma`, lines 33-62, and
`generate_trading_signal`, lines 93-197) -/

/-- Mean of a float window under rolling semantics: NaN when the window
holds a NaN (the valid count then falls short of `min_periods`). -/
def windowMeanF (w : List F) : F := if w.any F.isNan then .nan else fmean w

/-- Source `calculate_rsi(prices, period=14)`: gains and losses from
`diff().where(...)` (note: the NaN leading delta fails the `where`
condition and becomes 0), rolling means, `rs = gain / loss`,
`rsi = 100 - 100 / (1 + rs)` - all float arithmetic, so an all-gain
window yields rs = +infinity and RSI exactly 100. -/
def calculate_rsi (prices : List ℚ) (period : ℕ) : List F :=
  let delta := diffF prices
  let gain := rollingF period windowMeanF (delta.map (fun d => if F.blt (.fin 0) d then d else .fin 0))
  let loss := rollingF period windowMeanF ((delta.map (fun d => if F.blt d (.fin 0) then d else .fin 0)).map F.neg)
  let rs := List.zipWith F.div gain loss
  rs.map (fun r => F.sub (.fin 100) (F.div (.fin 100) (F.add (.fin 1) r)))

/-- `Series.ewm(span, adjust=False).mean()` after the seed value:
y_t = (1 - a) * y_(t-1) + a * x_t. -/
def ewmGo (a : ℚ) (prev : ℚ) : List ℚ → List ℚ
  | [] => []
  | x :: xs => ((1 - a) * prev + a * x) :: ewmGo a ((1 - a) * prev + a * x) xs

/-- `Series.ewm(span=s, adjust=False).mean()`: seeded by the first value,
smoothing factor 2 / (s + 1); exact rational arithmetic. -/
def ewmList (span : ℚ) : List ℚ → List ℚ
  | [] => []
  | x :: xs => x :: ewmGo (2 / (span + 1)) x xs

/-- Source `calculate_macd(prices, fast=12, slow=26, signal=9)`:
(macd line, signal line, histogram). -/
def calculate_macd (prices : List ℚ) : List ℚ × List ℚ × List ℚ :=
  let exp1 := ewmList 12 prices
  let exp2 := ewmList 26 prices
  let macd := List.zipWith (· - ·) exp1 exp2
  let signalLine := ewmList 9 macd
  (macd, signalLine, List.zipWith (· - ·) macd signalLine)

/-- Source `calculate_bollinger_bands(prices, period=20, std_dev=2)`:
(upper, middle, lower). -/
def calculate_bollinger_bands (sqrtq : ℚ → ℚ) (prices : List ℚ) : List F × List F × List F :=
  let sma := rollingF 20 (fun w => .fin (meanQ w)) prices
  let std := rollingF 20 (fun w => stdF sqrtq w) prices
  (List.zipWith (fun a b => F.add a (F.mul b (.fin 2))) sma std,
   sma,
   List.zipWith (fun a b => F.sub a (F.mul b (.fin 2))) sma std)

/-- Source `calculate_sma(prices, period)`. -/
def calculate_sma (prices : List ℚ) (period : ℕ) : List F :=
  rollingF period (fun w => .fin (meanQ w)) prices

/-- Source lines 167-183: the overall signal/action classification of
the accumulated integer score. -/
def classifySignal (score : ℤ) : String × String :=
  if 4 ≤ score then ("STRONG BUY", "Accumulate")
  else if 2 ≤ score then ("BUY", "Accumulate")
  else if score ≤ -4 then ("STRONG SELL", "Distribute")
  else if score ≤ -2 then ("SELL", "Distribute")
  else ("HOLD", "Hold")

/-- Source line 184: `confidence = min(abs(score) * 15, 100)`. -/
def signalConfidence (score : ℤ) : ℕ := min (score.natAbs * 15) 100

/-- What `generate_trading_signal` returns (the numeric and
classification fields of the source dict; the `signals` label list is
kept in source append order). -/
structure TradingSignal where
  signal : String
  action : String
  score : ℤ
  confidence : ℕ
  signals : List String
  rsi : F
  macd : ℚ
  macdSignal : ℚ
  priceVsSma50 : Option F
  priceVsSma200 : Option F
deriving DecidableEq

/-- Source `generate_trading_signal(prices)`: computes the indicators,
accumulates the integer score through the four rule families in source
order, then classifies and attaches `confidence = min(|score| * 15, 100)`.
`none` models the IndexError on an empty price series (`iloc[-1]`). -/
def generate_trading_signal (sqrtq : ℚ → ℚ) (prices : List ℚ) : Option TradingSignal :=
  if prices.length = 0 then none
  else
    let rsi := calculate_rsi prices 14
    let m := calculate_macd prices
    let bb := calculate_bollinger_bands sqrtq prices
    let sma50 := calculate_sma prices 50
    let sma200 := calculate_sma prices 200
    let currentPrice := ilocNeg prices 1
    let currentRsi := rsi.getD (rsi.length - 1) .nan
    let currentMacd := m.1.getD (m.1.length - 1) 0
    let currentMacdSignal := m.2.1.getD (m.2.1.length - 1) 0
    let currentMacdHist := m.2.2.getD (m.2.2.length - 1) 0
    let prevMacdHist := if 1 < m.2.2.length then m.2.2.getD (m.2.2.length - 2) 0 else 0
    let sma50Last := sma50.getD (sma50.length - 1) .nan
    let sma200Last := sma200.getD (sma200.length - 1) .nan
    let bbUpperLast := bb.1.getD (bb.1.length - 1) .nan
    let bbLowerLast := bb.2.2.getD (bb.2.2.length - 1) .nan
    let ruleRsi : ℤ × List String :=
      if F.blt currentRsi (.fin 30) then (2, ["RSI Oversold (Bullish)"])
      else if F.blt (.fin 70) currentRsi then (-2, ["RSI Overbought (Bearish)"])
      else if F.blt currentRsi (.fin 40) then (1, ["RSI Bullish Lean"])
      else if F.blt (.fin 60) currentRsi then (-1, ["RSI Bearish Lean"])
      else (0, [])
    let ruleMacd : ℤ × List String :=
      if currentMacdSignal < currentMacd ∧ prevMacdHist < 0 ∧ 0 < currentMacdHist then
        (2, ["MACD Bullish Crossover"])
      else if currentMacd < currentMacdSignal ∧ 0 < prevMacdHist ∧ currentMacdHist < 0 then
        (-2, ["MACD Bearish Crossover"])
      else if currentMacdSignal < currentMacd then (1, ["MACD Bullish"])
      else (-1, ["MACD Bearish"])
    let ruleTrend : ℤ × List String :=
      if !sma50Last.isNan && !sma200Last.isNan then
        if F.blt sma50Last (.fin currentPrice) && F.blt sma200Last sma50Last then
          (2, ["Strong Uptrend"])
        else if F.blt (.fin currentPrice) sma50Last && F.blt sma50Last sma200Last then
          (-2, ["Strong Downtrend"])
        else if F.blt sma200Last (.fin currentPrice) then (1, ["Above 200 SMA"])
        else (-1, ["Below 200 SMA"])
      else (0, [])
    let ruleBb : ℤ × List String :=
      if F.blt (.fin currentPrice) bbLowerLast then (1, ["Below Lower BB"])
      else if F.blt bbUpperLast (.fin currentPrice) then (-1, ["Above Upper BB"])
      else (0, [])
    let score := ruleRsi.1 + ruleMacd.1 + ruleTrend.1 + ruleBb.1
    let sigact := classifySignal score
    some ⟨sigact.1, sigact.2, score, signalConfidence score,
      ruleRsi.2 ++ ruleMacd.2 ++ ruleTrend.2 ++ ruleBb.2,
      currentRsi, currentMacd, currentMacdSignal,
      (if !sma50Last.isNan then
        some (F.mul (F.sub (F.div (.fin currentPrice) sma50Last) (.fin 1)) (.fin 100)) else none),
      (if !sma200Last.isNan then
        some (F.mul (F.sub (F.div (.fin currentPrice) sma200Last) (.fin 1)) (.fin 100)) else none)⟩

/-! ## Metric grading (source: `grade_metric`, lines 3091-3224)

The source returns a `(grade, ranges_explanation)` pair; the explanation
component is a fixed display string per metric and is not modelled. The
`float('inf')` interval endpoints are the infinities of `F`. -/

/-- A value hits the band `[lo, hi)`: the Python chained comparison
`low <= value < high` on floats. -/
def bandHit (value lo hi : F) : Bool := F.ble lo value && F.blt value hi

/-- The per-metric grade bands of `grading_criteria`, in the loop order
A, B, C, D, F; `none` for a metric name not in the dict ('Beta' has its
own table below). -/
def gradeBands : String → Option (List (String × F × F))
  | "Annual Return" => some [("A", .fin (12 / 100), .inf), ("B", .fin (8 / 100), .fin (12 / 100)),
      ("C", .fin (4 / 100), .fin (8 / 100)), ("D", .fin 0, .fin (4 / 100)), ("F", .ninf, .fin 0)]
  | "Sharpe Ratio" => some [("A", .fin 1, .inf), ("B", .fin (5 / 10), .fin 1),
      ("C", .fin (2 / 10), .fin (5 / 10)), ("D", .fin 0, .fin (2 / 10)), ("F", .ninf, .fin 0)]
  | "Sortino Ratio" => some [("A", .fin (15 / 10), .inf), ("B", .fin (9 / 10), .fin (15 / 10)),
      ("C", .fin (5 / 10), .fin (9 / 10)), ("D", .fin (2 / 10), .fin (5 / 10)), ("F", .ninf, .fin (2 / 10))]
  | "Max Drawdown" => some [("A", .fin (-(15 / 100)), .fin 0), ("B", .fin (-(25 / 100)), .fin (-(15 / 100))),
      ("C", .fin (-(35 / 100)), .fin (-(25 / 100))), ("D", .fin (-(50 / 100)), .fin (-(35 / 100))),
      ("F", .ninf, .fin (-(50 / 100)))]
  | "Volatility" => some [("A", .fin 0, .fin (12 / 100)), ("B", .fin (12 / 100), .fin (16 / 100)),
      ("C", .fin (16 / 100), .fin (20 / 100)), ("D", .fin (20 / 100), .fin (25 / 100)),
      ("F", .fin (25 / 100), .inf)]
  | "Calmar Ratio" => some [("A", .fin 1, .inf), ("B", .fin (5 / 10), .fin 1),
      ("C", .fin (25 / 100), .fin (5 / 10)), ("D", .fin (1 / 10), .fin (25 / 100)), ("F", .ninf, .fin (1 / 10))]
  | "Win Rate" => some [("A", .fin (60 / 100), .fin 1), ("B", .fin (55 / 100), .fin (60 / 100)),
      ("C", .fin (50 / 100), .fin (55 / 100)), ("D", .fin (45 / 100), .fin (50 / 100)),
      ("F", .fin 0, .fin (45 / 100))]
  | "Best Month" => some [("A", .fin (12 / 100), .inf), ("B", .fin (8 / 100), .fin (12 / 100)),
      ("C", .fin (4 / 100), .fin (8 / 100)), ("D", .fin (1 / 100), .fin (4 / 100)), ("F", .ninf, .fin (1 / 100))]
  | "Worst Month" => some [("A", .fin (-(8 / 100)), .fin 0), ("B", .fin (-(12 / 100)), .fin (-(8 / 100))),
      ("C", .fin (-(16 / 100)), .fin (-(12 / 100))), ("D", .fin (-(20 / 100)), .fin (-(16 / 100))),
      ("F", .ninf, .fin (-(20 / 100)))]
  | "Alpha" => some [("A", .fin (2 / 100), .inf), ("B", .fin (5 / 1000), .fin (2 / 100)),
      ("C", .fin (-(5 / 1000)), .fin (5 / 1000)), ("D", .fin (-(2 / 100)), .fin (-(5 / 1000))),
      ("F", .ninf, .fin (-(2 / 100)))]
  | "Avg Recovery Days" => some [("A", .fin 0, .fin 120), ("B", .fin 120, .fin 240),
      ("C", .fin 240, .fin 365), ("D", .fin 365, .fin 540), ("F", .fin 540, .inf)]
  | _ => none

/-- The Beta bands (several intervals per grade, symmetric around 1). -/
def betaBands : List (String × List (F × F)) :=
  [("A", [(.fin (85 / 100), .fin (115 / 100))]),
   ("B", [(.fin (7 / 10), .fin (85 / 100)), (.fin (115 / 100), .fin (13 / 10))]),
   ("C", [(.fin (5 / 10), .fin (7 / 10)), (.fin (13 / 10), .fin (15 / 10))]),
   ("D", [(.fin (3 / 10), .fin (5 / 10)), (.fin (15 / 10), .fin (17 / 10))]),
   ("F", [(.fin 0, .fin (3 / 10)), (.fin (17 / 10), .inf)])]

/-- The source loop `for grade in ['A','B','C','D','F']`: first band the
value hits wins, fallthrough returns 'F'. -/
def firstGrade (value : F) : List (String × F × F) → String
  | [] => "F"
  | (g, lo, hi) :: rest => if bandHit value lo hi then g else firstGrade value rest

/-- The Beta variant of the loop (several intervals per grade). -/
def firstGradeMulti (value : F) : List (String × List (F × F)) → String
  | [] => "F"
  | (g, ivs) :: rest =>
      if ivs.any (fun iv => bandHit value iv.1 iv.2) then g else firstGradeMulti value rest

/-- Source `grade_metric(metric_name, value)` (grade component).
'Beta' is a key of the source dict and is handled by the special branch
before the standard loop; a name not in the dict yields 'N/A'. -/
def grade_metric (name : String) (value : ℚ) : String :=
  if name = "Beta" then firstGradeMulti (.fin value) betaBands
  else
    match gradeBands name with
    | some bands => firstGrade (.fin value) bands
    | none => "N/A"

/-! ## Forward risk metrics (source: `calculate_forward_risk_metrics`,
lines 1478-1516) -/

/-- pandas `Series.quantile(q)` with the default linear interpolation:
sort ascending, virtual position h = (n - 1) * q, interpolate between
the neighbouring order statistics. (On the inputs used here h is never
at the exact top, and with q = 0 the fractional part is 0, so the
out-of-range neighbour is never weighted.) -/
def quantileQ (l : List ℚ) (q : ℚ) : ℚ :=
  let s := List.insertionSort (· ≤ ·) l
  let h := ((l.length : ℚ) - 1) * q
  let i := (Int.floor h).toNat
  let f := h - (i : ℚ)
  s.getD i 0 + f * (s.getD (i + 1) 0 - s.getD i 0)

/-- What `calculate_forward_risk_metrics` returns. -/
structure ForwardRisk where
  expectedReturn : ℚ
  expectedVol : F
  var95 : ℚ
  var99 : ℚ
  cvar95 : F
  cvar99 : F
  probLoss : ℚ
  estimatedMaxDd : F
deriving DecidableEq

/-- Source `calculate_forward_risk_metrics(returns, confidence_level=0.95)`:
historical-simulation VaR as the (1 - q) empirical quantile, CVaR as the
mean of the returns at or below the VaR, plus annualized mean/vol, loss
probability and the historical max drawdown. `none` models the raise on
an empty series (division by `len(returns)`). -/
def calculate_forward_risk_metrics (sqrtq : ℚ → ℚ) (returns : List ℚ) : Option ForwardRisk :=
  if returns.length = 0 then none
  else
    let var95 := quantileQ returns (1 - 95 / 100)
    let var99 := quantileQ returns (1 - 99 / 100)
    some ⟨meanQ returns * 252,
      F.mul (stdF sqrtq returns) (.fin (sqrtq 252)),
      var95, var99,
      fmean ((returns.filter (fun r => r ≤ var95)).map F.fin),
      fmean ((returns.filter (fun r => r ≤ var99)).map F.fin),
      ((returns.filter (fun r => r < 0)).length : ℚ) / (returns.length : ℚ),
      fminSkip (drawdownList returns)⟩

/-! ## Percentile ranking (source: benchmark tab, lines 4178-4186) -/

/-- The percentile-ranking computation of the Grading/Benchmark view:
the portfolio Sharpe ratio is put into the pool together with every
benchmark Sharpe ratio, `better_than_count` counts the pool entries the
portfolio strictly exceeds (a float comparison), and the percentile is
`better_than_count / len(all_sharpes) * 100`. -/
def percentileRanking (portfolioSharpe : F) (benchSharpes : List F) : ℚ :=
  let allSharpes := portfolioSharpe :: benchSharpes
  let betterThanCount := (allSharpes.filter (fun s => F.blt s portfolioSharpe)).length
  ((betterThanCount : ℚ) / (allSharpes.length : ℚ)) * 100

/-! ## Spec-side formulations

These definitions restate classifier behaviour in the words of the
specification (thresholds applied per date / first match wins); the
refinement theorems below compare them with the source translations
above. -/

/-- The five labels of the rolling regime classifier (spec 4.4a). -/
def fiveRegimeLabels : List String :=
  ["Bull Market (Low Vol)", "Bull Market (High Vol)", "Bear Market (Low Vol)",
   "Bear Market (High Vol)", "Sideways/Choppy"]

/-- Spec 4.4a, per date: insufficient trailing history defaults to
Sideways/Choppy; otherwise the exact annualized rolling mean return is
compared with plus or minus 2% and Bull/Bear splits by whether the rolling
volatility exceeds the full-history median volatility. -/
def specRegime (sqrtq : ℚ → ℚ) (returns : List ℚ) (lookback : ℕ) (t : ℕ) : String :=
  if t + 1 < lookback then "Sideways/Choppy"
  else
    let m := meanQ (window returns lookback t) * 252
    let volHigh := F.blt (fmedian (rollingAnnVol sqrtq lookback returns))
      ((rollingAnnVol sqrtq lookback returns).getD t .nan)
    if 2 / 100 < m then (if volHigh then "Bull Market (High Vol)" else "Bull Market (Low Vol)")
    else if m < -(2 / 100) then
      (if volHigh then "Bear Market (High Vol)" else "Bear Market (Low Vol)")
    else "Sideways/Choppy"

/-- Spec 4.4b: the advisory cascade as the claim words it - first match
wins over the computed trailing statistics, each regime with its fixed
stocks/bonds/cash target. -/
def specEnhancedCascade (volatility momentum60d recentReturn20d : F) : String × Allocation :=
  if F.blt (.fin (35 / 100)) volatility then ("High Volatility / Crisis", ⟨45, 45, 10⟩)
  else if F.blt momentum60d (.fin (-(10 / 100))) && F.blt (.fin (25 / 100)) volatility then
    ("Bear Market", ⟨55, 40, 5⟩)
  else if F.blt (.fin (15 / 100)) momentum60d && F.blt volatility (.fin (20 / 100)) then
    ("Bull Market", ⟨75, 22, 3⟩)
  else if F.blt (.fin 0) momentum60d && F.blt (.fin 0) recentReturn20d then
    ("Recovery", ⟨65, 30, 5⟩)
  else ("Neutral / Consolidation", ⟨60, 35, 5⟩)

/-! ## Shared lemmas -/

/-- Strict float comparison is irreflexive (`x > x` is false, also for
NaN and the infinities). -/
lemma F.blt_irrefl (a : F) : F.blt a a = false := by
  cases a <;> simp [F.blt]

/-- `getD` through `(List.range n).map f`. -/
lemma rangeMap_getD {α : Type} (f : ℕ → α) (n t : ℕ) (d : α) (ht : t < n) :
    ((List.range n).map f).getD t d = f t := by
  rw [List.getD_eq_getElem?_getD, List.getElem?_map, List.getElem?_range ht]
  rfl

/-! ## C9: percentile ranking -/

/-- C9 (counterexample): with one benchmark of Sharpe 0 and a portfolio
Sharpe of 1, the portfolio beats k = 1 of n = 1 benchmarks, so the claim
predicts the 100th percentile (k / n); the source computes 50 because
the ranking pool `all_sharpes` also contains the portfolio itself. -/
theorem percentileRanking_not_over_benchmarks :
    percentileRanking (.fin 1) [.fin 0] = 50 ∧
    percentileRanking (.fin 1) [.fin 0] ≠ ((1 : ℚ) / (1 : ℚ)) * 100 := by
  constructor <;> norm_num [percentileRanking, F.blt, List.filter]

/-- C9 (amended): the reported percentile equals k / (n + 1) * 100,
where k is the number of benchmarks whose Sharpe ratio the portfolio
strictly exceeds (a float comparison) and n the number of benchmarks -
the pool includes the portfolio itself, which never strictly beats
itself. -/
theorem percentileRanking_eq (s : F) (bs : List F) :
    percentileRanking s bs =
      (((bs.filter (fun x => F.blt x s)).length : ℚ) / ((bs.length : ℚ) + 1)) * 100 := by
  simp only [percentileRanking, List.filter_cons, F.blt_irrefl, List.length_cons]
  push_cast
  ring_nf

/-! ## C10: grade bands are half-open -/

/-- `grade_metric` at the Max Drawdown table (evaluating the string
dispatch). -/
lemma grade_metric_maxdd (v : ℚ) :
    grade_metric "Max Drawdown" v = firstGrade (.fin v)
      [("A", .fin (-(15 / 100)), .fin 0), ("B", .fin (-(25 / 100)), .fin (-(15 / 100))),
       ("C", .fin (-(35 / 100)), .fin (-(25 / 100))), ("D", .fin (-(50 / 100)), .fin (-(35 / 100))),
       ("F", .ninf, .fin (-(50 / 100)))] := rfl

/-- `grade_metric` at the Win Rate table. -/
lemma grade_metric_winrate (v : ℚ) :
    grade_metric "Win Rate" v = firstGrade (.fin v)
      [("A", .fin (60 / 100), .fin 1), ("B", .fin (55 / 100), .fin (60 / 100)),
       ("C", .fin (50 / 100), .fin (55 / 100)), ("D", .fin (45 / 100), .fin (50 / 100)),
       ("F", .fin 0, .fin (45 / 100))] := rfl

/-- C10: every band check is the half-open `low <= value < high` and a
value hitting no band falls through to 'F'; hence Max Drawdown exactly 0
(the exclusive top of its best band) grades 'F', as does Win Rate
exactly 1.0, and in general every nonnegative Max Drawdown and every Win
Rate outside [0, 1) grades 'F', while the 'A' grades are exactly the
half-open intervals of the table. -/
theorem grade_metric_half_open (v : ℚ) :
    grade_metric "Max Drawdown" 0 = "F" ∧
    grade_metric "Win Rate" 1 = "F" ∧
    (0 ≤ v → grade_metric "Max Drawdown" v = "F") ∧
    (1 ≤ v ∨ v < 0 → grade_metric "Win Rate" v = "F") ∧
    (grade_metric "Max Drawdown" v = "A" ↔ -(15 / 100) ≤ v ∧ v < 0) ∧
    (grade_metric "Win Rate" v = "A" ↔ 60 / 100 ≤ v ∧ v < 1) := by
  refine ⟨?_, ?_, ?_, ?_, ?_, ?_⟩ <;>
    simp only [grade_metric_maxdd, grade_metric_winrate, firstGrade, bandHit, F.ble, F.blt,
      Bool.and_eq_true, decide_eq_true_eq]
  · norm_num
  · norm_num
  · intro hv
    rw [if_neg (by rintro ⟨h1, h2⟩; linarith), if_neg (by rintro ⟨h1, h2⟩; linarith),
      if_neg (by rintro ⟨h1, h2⟩; linarith), if_neg (by rintro ⟨h1, h2⟩; linarith),
      if_neg (by rintro ⟨h1, h2⟩; linarith)]
  · intro hv
    rcases hv with hv | hv <;>
      rw [if_neg (by rintro ⟨h1, h2⟩; linarith), if_neg (by rintro ⟨h1, h2⟩; linarith),
        if_neg (by rintro ⟨h1, h2⟩; linarith), if_neg (by rintro ⟨h1, h2⟩; linarith),
        if_neg (by rintro ⟨h1, h2⟩; linarith)]
  · constructor
    · intro h
      split_ifs at h with h1 h2 h3 h4 h5 <;> first | exact h1 | exact absurd h (by decide)
    · intro h
      rw [if_pos h]
  · constructor
    · intro h
      split_ifs at h with h1 h2 h3 h4 h5 <;> first | exact h1 | exact absurd h (by decide)
    · intro h
      rw [if_pos h]

/-- C10 (witness): Max Drawdown exactly 0 grades 'F', by the theorem at
the concrete value 0. -/
theorem grade_metric_half_open_witness : grade_metric "Max Drawdown" 0 = "F" :=
  (grade_metric_half_open 0).1

/-! ## C7: advisory regime cascade -/

/-- The cascade block classifies exactly as the spec words it: first
match wins over the computed statistics, each regime with its fixed
allocation. -/
lemma regimeCascade_spec (v m r20 r60 : F) (t : String) (p : Option F) :
    ((regimeCascade v m r20 r60 t p).regime, (regimeCascade v m r20 r60 t p).allocation) =
      specEnhancedCascade (regimeCascade v m r20 r60 t p).volatility
        (regimeCascade v m r20 r60 t p).momentum60d
        (regimeCascade v m r20 r60 t p).recentReturn20d := by
  unfold regimeCascade specEnhancedCascade
  split_ifs <;> simp_all

/-- C7: `detect_market_regime_enhanced` classifies by the
first-match-wins priority cascade over its computed trailing statistics
(volatility > 35% Crisis; momentum < -10% and volatility > 25% Bear;
momentum > 15% and volatility < 20% Bull; momentum > 0 and 20-day
return > 0 Recovery; else Neutral), and each regime carries its fixed
stocks/bonds/cash allocation - `specEnhancedCascade` spells out the
thresholds and allocations. -/
theorem detect_market_regime_enhanced_priority (sqrtq : ℚ → ℚ) (returns prices : List ℚ) :
    ((detect_market_regime_enhanced sqrtq returns prices).regime,
      (detect_market_regime_enhanced sqrtq returns prices).allocation) =
    specEnhancedCascade (detect_market_regime_enhanced sqrtq returns prices).volatility
      (detect_market_regime_enhanced sqrtq returns prices).momentum60d
      (detect_market_regime_enhanced sqrtq returns prices).recentReturn20d :=
  regimeCascade_spec _ _ _ _ _ _

/-! ## C8: trading-signal classification -/

/-- The score classification, spelled out threshold by threshold. -/
lemma classifySignal_eq (n : ℤ) :
    classifySignal n =
      ((if 4 ≤ n then "STRONG BUY" else if 2 ≤ n then "BUY"
        else if n ≤ -4 then "STRONG SELL" else if n ≤ -2 then "SELL" else "HOLD"),
       (if 4 ≤ n then "Accumulate" else if 2 ≤ n then "Accumulate"
        else if n ≤ -4 then "Distribute" else if n ≤ -2 then "Distribute" else "Hold")) := by
  unfold classifySignal
  split_ifs <;> rfl

/-- The confidence formula, over the integers. -/
lemma signalConfidence_eq (n : ℤ) : (signalConfidence n : ℤ) = min (|n| * 15) 100 := by
  unfold signalConfidence
  rw [Int.abs_eq_natAbs]
  push_cast
  omega

/-- C8: whenever `generate_trading_signal` returns (it raises only on an
empty price series), the returned signal and action classify the
returned integer score by the fixed thresholds (score >= 4 STRONG
BUY/Accumulate, >= 2 BUY/Accumulate, <= -4 STRONG SELL/Distribute,
<= -2 SELL/Distribute, else HOLD), and the returned confidence equals
min(|score| * 15, 100). -/
theorem generate_trading_signal_classification (sqrtq : ℚ → ℚ) (prices : List ℚ) :
    (generate_trading_signal sqrtq prices).elim True fun s =>
      s.signal = (if 4 ≤ s.score then "STRONG BUY" else if 2 ≤ s.score then "BUY"
        else if s.score ≤ -4 then "STRONG SELL" else if s.score ≤ -2 then "SELL" else "HOLD") ∧
      s.action = (if 4 ≤ s.score then "Accumulate" else if 2 ≤ s.score then "Accumulate"
        else if s.score ≤ -4 then "Distribute" else if s.score ≤ -2 then "Distribute" else "Hold") ∧
      (s.confidence : ℤ) = min (|s.score| * 15) 100 := by
  cases prices with
  | nil => exact trivial
  | cons x xs =>
      exact ⟨congrArg Prod.fst (classifySignal_eq _), congrArg Prod.snd (classifySignal_eq _),
        signalConfidence_eq _⟩

/-! ## C1: portfolio returns are the weighted sum of asset returns -/

/-- Float multiplication over finite rows is exact rational
multiplication. -/
lemma zipWith_fmul_map_fin (a b : List ℚ) :
    List.zipWith F.mul (a.map F.fin) (b.map F.fin) = (List.zipWith (· * ·) a b).map F.fin := by
  induction a generalizing b with
  | nil => simp
  | cons x xs ih => cases b <;> simp [F.mul, ih]

/-- Folding float addition over finite values is exact rational
addition. -/
lemma foldl_fadd_fin (l : List ℚ) (a : ℚ) :
    (l.map F.fin).foldl F.add (.fin a) = .fin (a + l.sum) := by
  induction l generalizing a with
  | nil => simp
  | cons x xs ih => simp [F.add, ih, add_assoc]

/-- The pandas skipna sum of a NaN-free row is the exact rational sum. -/
lemma fsum_map_fin (l : List ℚ) : fsum (l.map F.fin) = .fin l.sum := by
  unfold fsum
  rw [List.filter_eq_self.mpr (by simp [F.isNan])]
  rw [foldl_fadd_fin, zero_add]

/-- C1: at every date whose (dropna-filtered) return row is defined, the
portfolio daily return is exactly the sum over assets of
weight * asset return; and on the two-asset scenario whose daily returns
are [1%, -1%, 2%, -2%] and [0, 0, 0, 0] (the price columns below
realize exactly those returns) with weights [0.5, 0.5], the output
series is exactly [0.005, -0.005, 0.01, -0.01]. -/
theorem calculate_portfolio_returns_spec :
    (∀ (prices : List (List ℚ)) (weights : List ℚ) (t : ℕ) (row : List ℚ),
      (dropnaRows (pctChangeRows prices))[t]? = some (row.map F.fin) →
      (calculate_portfolio_returns prices weights)[t]? =
        some (.fin ((List.zipWith (· * ·) weights row).sum))) ∧
    calculate_portfolio_returns
      [[1, 1], [101 / 100, 1], [101 / 100 * (99 / 100), 1],
       [101 / 100 * (99 / 100) * (102 / 100), 1],
       [101 / 100 * (99 / 100) * (102 / 100) * (98 / 100), 1]] [1 / 2, 1 / 2] =
      [.fin (1 / 200), .fin (-(1 / 200)), .fin (1 / 100), .fin (-(1 / 100))] := by
  constructor
  · intro prices weights t row h
    unfold calculate_portfolio_returns
    rw [List.getElem?_map, h]
    simp only [Option.map]
    rw [zipWith_fmul_map_fin, fsum_map_fin]
    rw [List.zipWith_comm_of_comm (· * ·) mul_comm]
  · norm_num [calculate_portfolio_returns, dropnaRows, pctChangeRows, pctRow, fsum,
      F.div, F.mul, F.isNan, F.add, List.filter]

/-- C1 (witness): the general weighted-sum statement applied at the
concrete scenario matrix, date 0: the first defined return row is
[1%, 0%], and the portfolio return there is 0.5%. -/
theorem calculate_portfolio_returns_spec_witness :
    (calculate_portfolio_returns
      [[1, 1], [101 / 100, 1], [101 / 100 * (99 / 100), 1],
       [101 / 100 * (99 / 100) * (102 / 100), 1],
       [101 / 100 * (99 / 100) * (102 / 100) * (98 / 100), 1]] [1 / 2, 1 / 2])[0]? =
      some (.fin ((List.zipWith (· * ·) [(1 : ℚ) / 2, 1 / 2] [1 / 100, 0]).sum)) :=
  calculate_portfolio_returns_spec.1 _ _ 0 [1 / 100, 0]
    (by norm_num [dropnaRows, pctChangeRows, pctRow, F.div, F.isNan, List.filter])

/-! ## C5: optimizer constraint satisfaction and equal-weight fallback -/

/-- C5: (1) assuming the external SLSQP solver honours its contract on
success (box bounds exactly, budget within tolerance), every weight
vector `optimize_portfolio` returns satisfies 0 <= w_i <= 1 and
sum w = 1 within the tolerance - on solver failure the equal-weight
fallback satisfies them exactly; (2) when the solver reports
non-convergence the function returns the equal-weight vector 1/n
rather than raising. -/
theorem optimize_portfolio_constraints :
    (∀ (sqrtq : ℚ → ℚ) (solver : SolveFn) (prices : List (List ℚ)) (tol : ℚ) (out : List ℚ),
      0 ≤ tol →
      (∀ obj init bnds, (solver obj init bnds).success = true →
        (∀ w ∈ (solver obj init bnds).x, 0 ≤ w ∧ w ≤ 1) ∧
        |(solver obj init bnds).x.sum - 1| ≤ tol) →
      optimize_portfolio sqrtq solver prices "max_sharpe" = some out →
      (∀ w ∈ out, 0 ≤ w ∧ w ≤ 1) ∧ |out.sum - 1| ≤ tol) ∧
    (∀ (sqrtq : ℚ → ℚ) (solver : SolveFn) (prices : List (List ℚ)),
      0 < numCols prices →
      (∀ obj init bnds, (solver obj init bnds).success = false) →
      optimize_portfolio sqrtq solver prices "max_sharpe" =
        some (List.replicate (numCols prices) (1 / (numCols prices : ℚ)))) := by
  have equalWeight : ∀ n : ℕ, 0 < n →
      (∀ w ∈ List.replicate n ((1 : ℚ) / (n : ℚ)), 0 ≤ w ∧ w ≤ 1) ∧
      (List.replicate n ((1 : ℚ) / (n : ℚ))).sum = 1 := by
    intro n hn
    have hnq : (0 : ℚ) < (n : ℚ) := by exact_mod_cast hn
    constructor
    · intro w hw
      rw [List.eq_of_mem_replicate hw]
      constructor
      · positivity
      · rw [div_le_one hnq]
        exact_mod_cast hn
    · rw [List.sum_replicate, nsmul_eq_mul, mul_one_div, div_self (ne_of_gt hnq)]
  constructor
  · intro sqrtq solver prices tol out htol hcontract hsome
    unfold optimize_portfolio at hsome
    by_cases hn : numCols prices = 0
    · simp [hn] at hsome
    · rw [if_neg hn, if_pos rfl] at hsome
      set res := solver _ _ _ with hres
      rcases Option.some_injective _ hsome.symm with rfl
      by_cases hs : res.success = true
      · rw [if_pos hs]
        exact hcontract _ _ _ hs
      · rw [if_neg hs]
        have hn0 : 0 < numCols prices := Nat.pos_of_ne_zero hn
        rcases equalWeight (numCols prices) hn0 with ⟨hb, hsum⟩
        exact ⟨hb, by rw [hsum]; simpa using htol⟩
  · intro sqrtq solver prices hn hfail
    unfold optimize_portfolio
    rw [if_neg (Nat.pos_iff_ne_zero.mp hn), if_pos rfl]
    dsimp only
    rw [hfail]
    simp

/-- C5 (witness): with a solver that always reports failure, one asset
column yields the equal-weight vector [1]. -/
theorem optimize_portfolio_constraints_witness :
    optimize_portfolio (fun q => q) (fun _ _ _ => ⟨[], false⟩) [[1]] "max_sharpe" =
      some (List.replicate (numCols [[(1 : ℚ)]]) (1 / (numCols [[(1 : ℚ)]] : ℚ))) :=
  optimize_portfolio_constraints.2 (fun q => q) (fun _ _ _ => ⟨[], false⟩) [[1]]
    (by norm_num [numCols]) (fun _ _ _ => rfl)

/-! ## C2: degenerate metric paths on flat and length-1 series

The claim says a flat all-zero series yields sortino = 0. The code
instead yields sortino = NaN: the downside set is empty, pandas `std`
of an empty series is NaN, and the guard `downside_std != 0` is TRUE
for NaN, so the ratio divides by NaN. Everything else the claim lists
(sharpe, calmar, max_drawdown, win_rate all 0; no raise at length 1)
holds. -/

/-- C2: on the flat zero series [0, 0] the code returns sharpe = 0,
max_drawdown = 0, calmar = 0, win_rate = 0, but sortino = NaN (not 0 as
claimed); and a length-1 series does not raise. Only sqrt(0) = 0 is
assumed of the square-root routine. -/
theorem calculate_portfolio_metrics_flat_zero (sqrtq : ℚ → ℚ) (powq : ℚ → ℚ → ℚ) (rf : ℚ)
    (h0 : sqrtq 0 = 0) :
    ((calculate_portfolio_metrics sqrtq powq [0, 0] rf).map
      (fun m => (m.sharpe, m.sortino, m.maxDrawdown, m.calmar, m.winRate)) =
      some (.fin 0, .nan, .fin 0, .fin 0, 0)) ∧
    (∀ r : ℚ, (calculate_portfolio_metrics sqrtq powq [r] rf).isSome = true) := by
  constructor
  · norm_num [calculate_portfolio_metrics, stdF, varQ, meanQ, drawdownList, cumReturns,
      cumprodGo, runningMax, runningMaxGo, fminSkip, fmin2, F.mul, F.div, F.bne, F.add,
      F.neg, F.abs, F.ble, F.isNan, List.filter, h0]
  · intro r
    norm_num [calculate_portfolio_metrics]

/-- C2 (witness): the evaluation at a concrete square root (the
identity agrees with the true square root at 0) and power routine. -/
theorem calculate_portfolio_metrics_flat_zero_witness :
    ((calculate_portfolio_metrics (fun q => q) (fun _ _ => 1) [0, 0] (2 / 100)).map
      (fun m => (m.sharpe, m.sortino, m.maxDrawdown, m.calmar, m.winRate)) =
      some (.fin 0, .nan, .fin 0, .fin 0, 0)) ∧
    (∀ r : ℚ, (calculate_portfolio_metrics (fun q => q) (fun _ _ => 1) [r] (2 / 100)).isSome = true) :=
  calculate_portfolio_metrics_flat_zero (fun q => q) (fun _ _ => 1) (2 / 100) rfl

/-! ## C3: volatility nonnegative, drawdown nonpositive

The claim quantifies over every non-empty return series. Two NaN escape
hatches refute it as stated: a length-1 series has NaN volatility (so
`ann_vol >= 0` is a false float comparison), and a series starting with
the return -1 drives every running maximum to 0, making every drawdown
entry 0/0 = NaN and the max drawdown NaN. On series of length at least
2 the volatility is a nonnegative finite value, and whenever the first
return differs from -1 the max drawdown is at most 0. -/

/-- The sample variance is nonnegative (sum of squares over a positive
ddof denominator). -/
lemma varQ_nonneg (l : List ℚ) (h : 2 ≤ l.length) : 0 ≤ varQ l := by
  unfold varQ
  apply div_nonneg
  · apply List.sum_nonneg
    intro x hx
    obtain ⟨y, _, rfl⟩ := List.mem_map.mp hx
    positivity
  · have h2 : (2 : ℚ) ≤ (l.length : ℚ) := by exact_mod_cast h
    linarith

/-- Float less-or-equal is reflexive away from NaN. -/
lemma F.ble_refl (a : F) (ha : a.isNan = false) : F.ble a a = true := by
  cases a <;> simp_all [F.ble, F.isNan]

/-- Float less-or-equal is total away from NaN. -/
lemma F.ble_total (a b : F) (ha : a.isNan = false) (hb : b.isNan = false) :
    F.ble a b = true ∨ F.ble b a = true := by
  cases a <;> cases b <;> simp_all [F.ble, F.isNan]
  exact le_total _ _

/-- Float less-or-equal is transitive (vacuous when NaN is involved). -/
lemma F.ble_trans {a b c : F} (h1 : F.ble a b = true) (h2 : F.ble b c = true) :
    F.ble a c = true := by
  cases a <;> cases b <;> cases c <;> simp_all [F.ble]
  linarith

/-- The two-argument min is bounded by its left argument away from NaN. -/
lemma fmin2_ble_left (a b : F) (ha : a.isNan = false) (hb : b.isNan = false) :
    F.ble (fmin2 a b) a = true := by
  unfold fmin2
  split_ifs with h
  · exact F.ble_refl a ha
  · rcases F.ble_total a b ha hb with h1 | h1
    · exact absurd h1 h
    · exact h1

/-- The two-argument min of non-NaN values is not NaN. -/
lemma fmin2_not_nan (a b : F) (ha : a.isNan = false) (hb : b.isNan = false) :
    (fmin2 a b).isNan = false := by
  unfold fmin2
  split_ifs <;> assumption

/-- Folding the pandas min never exceeds the start value. -/
lemma foldl_fmin2_ble (xs : List F) (a : F) (ha : a.isNan = false)
    (hxs : ∀ x ∈ xs, x.isNan = false) : F.ble (xs.foldl fmin2 a) a = true := by
  induction xs generalizing a with
  | nil => exact F.ble_refl a ha
  | cons x xs ih =>
      have hx : x.isNan = false := hxs x (by simp)
      have h1 : F.ble (fmin2 a x) a = true := fmin2_ble_left a x ha hx
      have h2 := ih (fmin2 a x) (fmin2_not_nan a x ha hx) (fun y hy => hxs y (by simp [hy]))
      exact F.ble_trans h2 h1

/-- The skipna min of a list headed by a finite value is at most that
value. -/
lemma fminSkip_cons_fin (q : ℚ) (rest : List F) :
    F.ble (fminSkip (.fin q :: rest)) (.fin q) = true := by
  unfold fminSkip
  rw [List.filter_cons_of_pos (by simp [F.isNan])]
  refine foldl_fmin2_ble _ _ (by simp [F.isNan]) (fun x hx => ?_)
  have := List.of_mem_filter hx
  simpa using this

/-- C3 (counterexample): the non-empty series [0] yields NaN annualized
volatility, so `0 <= ann_vol` is false there; and the non-empty series
[-1] yields NaN max drawdown, so `max_drawdown <= 0` is false there. -/
theorem annualized_vol_nan_on_length_one :
    (calculate_portfolio_metrics (fun q => q) (fun _ _ => 1) [0] (2 / 100)).map
      (fun m => (m.annVol, F.ble (.fin 0) m.annVol)) = some (.nan, false) ∧
    (calculate_portfolio_metrics (fun q => q) (fun _ _ => 1) [-1] (2 / 100)).map
      (fun m => (m.maxDrawdown, F.ble m.maxDrawdown (.fin 0))) = some (.nan, false) := by
  constructor <;>
    norm_num [calculate_portfolio_metrics, stdF, drawdownList, cumReturns, cumprodGo,
      runningMax, runningMaxGo, fminSkip, F.mul, F.div, F.ble, F.isNan, List.filter]

/-- C3 (amended): assuming the square-root routine maps nonnegatives to
nonnegatives, every return series of length at least 2 has a finite
annualized volatility with `0 <= ann_vol` true, and every non-empty
series whose first return is not -1 has `max_drawdown <= 0` true. -/
theorem metrics_vol_nonneg_drawdown_nonpos (sqrtq : ℚ → ℚ) (powq : ℚ → ℚ → ℚ) (rf : ℚ)
    (returns : List ℚ) (hs : ∀ q, 0 ≤ q → 0 ≤ sqrtq q) :
    (2 ≤ returns.length →
      (calculate_portfolio_metrics sqrtq powq returns rf).elim False fun m =>
        F.ble (.fin 0) m.annVol = true) ∧
    (∀ r rest, returns = r :: rest → r ≠ -1 →
      (calculate_portfolio_metrics sqrtq powq returns rf).elim False fun m =>
        F.ble m.maxDrawdown (.fin 0) = true) := by
  constructor
  · intro hlen
    unfold calculate_portfolio_metrics
    rw [if_neg (by omega)]
    simp only [Option.elim]
    unfold stdF
    rw [if_neg (by omega)]
    simp only [F.mul, F.ble, decide_eq_true_eq]
    exact mul_nonneg (hs _ (varQ_nonneg returns hlen)) (hs 252 (by norm_num))
  · rintro r rest rfl hr
    unfold calculate_portfolio_metrics
    rw [if_neg (by simp)]
    simp only [Option.elim]
    have hne : (1 : ℚ) + r ≠ 0 := fun h => hr (by linarith)
    have htail : drawdownList (r :: rest) =
        .fin 0 :: List.zipWith (fun c m => F.div (.fin (c - m)) (.fin m))
          (cumprodGo (1 + r) rest) (runningMaxGo (1 + r) (cumprodGo (1 + r) rest)) := by
      unfold drawdownList cumReturns
      simp [cumprodGo, runningMax, runningMaxGo, F.div, hne, sub_self, zero_div]
    rw [htail]
    exact fminSkip_cons_fin 0 _

/-- C3 (witness): the amended statement at the concrete series
[0, 1/100], with the identity as a square-root routine (nonnegative on
nonnegatives). -/
theorem metrics_vol_nonneg_drawdown_nonpos_witness :
    (2 ≤ [(0 : ℚ), 1 / 100].length →
      (calculate_portfolio_metrics (fun q => q) (fun _ _ => 1) [0, 1 / 100] (2 / 100)).elim
        False fun m => F.ble (.fin 0) m.annVol = true) ∧
    (∀ r rest, [(0 : ℚ), 1 / 100] = r :: rest → r ≠ -1 →
      (calculate_portfolio_metrics (fun q => q) (fun _ _ => 1) [0, 1 / 100] (2 / 100)).elim
        False fun m => F.ble m.maxDrawdown (.fin 0) = true) :=
  metrics_vol_nonneg_drawdown_nonpos (fun q => q) (fun _ _ => 1) (2 / 100) [0, 1 / 100]
    (fun _ hq => hq)

/-! ## C6: rolling regime classification partitions every date -/

/-- C6: for every window of at least one observation (pandas rejects a
zero window), `detect_market_regimes` labels every date of the input,
each date getting exactly the spec classification: dates with an
undefined rolling mean (insufficient trailing history) default to
Sideways/Choppy, dates with defined rolling statistics classify by the
annualized rolling mean against the +2% and -2% thresholds, Bull/Bear split
by rolling volatility exceeding the full-history median - and the label
is always one of the five. -/
theorem detect_market_regimes_partition (sqrtq : ℚ → ℚ) (returns : List ℚ) (lookback : ℕ)
    (hlb : 1 ≤ lookback) :
    (detect_market_regimes sqrtq returns lookback).elim False fun regimes =>
      regimes.length = returns.length ∧
      ∀ t, t < returns.length →
        regimes.getD t "" = specRegime sqrtq returns lookback t ∧
        regimes.getD t "" ∈ fiveRegimeLabels := by
  unfold detect_market_regimes
  rw [if_neg (by omega)]
  simp only [Option.elim]
  refine ⟨by simp, fun t ht => ?_⟩
  rw [rangeMap_getD _ _ _ _ ht]
  have hm : (rollingAnnMean lookback returns).getD t .nan =
      if t + 1 < lookback then .nan else .fin (meanQ (window returns lookback t) * 252) := by
    unfold rollingAnnMean rollingF
    exact rangeMap_getD _ _ _ _ ht
  unfold specRegime
  by_cases hins : t + 1 < lookback
  · rw [hm]
    simp [hins, F.blt, fiveRegimeLabels]
  · rw [hm, if_neg hins, if_neg hins]
    set vh := F.blt (fmedian (rollingAnnVol sqrtq lookback returns))
      ((rollingAnnVol sqrtq lookback returns).getD t .nan) with hvhdef
    set m := meanQ (window returns lookback t) * 252 with hmdef
    by_cases h1 : 2 / 100 < m
    · have h2 : ¬ (m < -(2 / 100)) := by linarith
      cases hvh : vh <;> simp [F.blt, h1, h2, fiveRegimeLabels, decide_eq_true_eq]
    · by_cases h2 : m < -(2 / 100)
      · cases hvh : vh <;> simp [F.blt, h1, h2, fiveRegimeLabels, decide_eq_true_eq]
      · cases hvh : vh <;> simp [F.blt, h1, h2, fiveRegimeLabels, decide_eq_true_eq]

/-- C6 (witness): the partition statement at a concrete two-date series
with the default 60-day lookback (both dates fall short of the window
and default to Sideways/Choppy). -/
theorem detect_market_regimes_partition_witness :
    (detect_market_regimes (fun q => q) [0, 0] 60).elim False fun regimes =>
      regimes.length = [(0 : ℚ), 0].length ∧
      ∀ t, t < [(0 : ℚ), 0].length →
        regimes.getD t "" = specRegime (fun q => q) [0, 0] 60 t ∧
        regimes.getD t "" ∈ fiveRegimeLabels :=
  detect_market_regimes_partition (fun q => q) [0, 0] 60 (by norm_num)


/-! ## C4: VaR / CVaR orderings

The claim asserts `CVaR(95) <= VaR(95) <= 0` whenever any return is
negative, and `CVaR(99) <= CVaR(95)`. The orderings among CVaR and VaR
hold for every non-empty series, but `VaR(95) <= 0` fails when less
than about 5% of the sample mass is nonpositive: the interpolated 5%
quantile then sits among positive order statistics. -/

/-- Indexing a sorted list is monotone. -/
lemma sorted_getD_mono {s : List ℚ} (hs : s.Sorted (· ≤ ·)) {i j : ℕ}
    (hij : i ≤ j) (hj : j < s.length) : s.getD i 0 ≤ s.getD j 0 := by
  have hi : i < s.length := lt_of_le_of_lt hij hj
  rw [List.getD_eq_getElem?_getD, List.getD_eq_getElem?_getD,
    List.getElem?_eq_getElem hi, List.getElem?_eq_getElem hj]
  simpa using List.Sorted.rel_get_of_le hs (a := ⟨i, hi⟩) (b := ⟨j, hj⟩) hij


/-- In a sorted list, every index below the count of elements at most c
holds an element at most c. -/
lemma sorted_prefix_le {c : ℚ} : ∀ {s : List ℚ}, s.Sorted (· ≤ ·) → ∀ {j : ℕ},
    j < s.countP (fun x => decide (x ≤ c)) → s.getD j 0 ≤ c := by
  intro s hs
  induction s with
  | nil => intro j hj; simp [List.countP, List.countP.go] at hj
  | cons x xs ih =>
      intro j hj
      rw [List.sorted_cons] at hs
      by_cases hx : x ≤ c
      · cases j with
        | zero => simpa [List.getD_cons_zero] using hx
        | succ j =>
            rw [List.getD_cons_succ]
            rw [List.countP_cons_of_pos _ _ (by simpa using hx)] at hj
            exact ih hs.2 (by omega)
      · exfalso
        have hz : List.countP (fun y => decide (y ≤ c)) (x :: xs) = 0 := by
          rw [List.countP_eq_zero]
          intro a ha
          simp only [decide_eq_true_eq]
          rcases List.mem_cons.mp ha with rfl | ha
          · exact hx
          · intro hac
            exact hx (le_trans (hs.1 a ha) hac)
        omega


/-- The floor of a nonnegative rational, as a natural number, is at most
the rational. -/
lemma floor_toNat_le {h : ℚ} (hh0 : 0 ≤ h) : ((Int.floor h).toNat : ℚ) ≤ h := by
  have hfl0 : 0 ≤ Int.floor h := Int.floor_nonneg.mpr hh0
  have he : ((Int.floor h).toNat : ℤ) = Int.floor h := Int.toNat_of_nonneg hfl0
  calc ((Int.floor h).toNat : ℚ) = ((Int.floor h : ℤ) : ℚ) := by exact_mod_cast he
    _ ≤ h := Int.floor_le h


/-- A nonnegative rational is below its floor plus one. -/
lemma lt_floor_toNat_add_one {h : ℚ} (hh0 : 0 ≤ h) : h < ((Int.floor h).toNat : ℚ) + 1 := by
  have hfl0 : 0 ≤ Int.floor h := Int.floor_nonneg.mpr hh0
  have he : ((Int.floor h).toNat : ℤ) = Int.floor h := Int.toNat_of_nonneg hfl0
  have hlt := Int.lt_floor_add_one h
  have : ((Int.floor h : ℤ) : ℚ) = ((Int.floor h).toNat : ℚ) := by exact_mod_cast he.symm
  linarith


/-- The interpolated quantile is at least the smallest sample value. -/
lemma quantileQ_ge_head (l : List ℚ) (q : ℚ) (hl : l ≠ []) (hq0 : 0 ≤ q) (hq1 : q ≤ 1) :
    (List.insertionSort (· ≤ ·) l).getD 0 0 ≤ quantileQ l q := by
  have hsorted := List.sorted_insertionSort (· ≤ ·) l
  have hslen : (List.insertionSort (· ≤ ·) l).length = l.length :=
    (List.perm_insertionSort (· ≤ ·) l).length_eq
  have hn1 : 1 ≤ l.length := List.length_pos.mpr hl
  have hnq : (1 : ℚ) ≤ (l.length : ℚ) := by exact_mod_cast hn1
  unfold quantileQ
  dsimp only
  set s := List.insertionSort (· ≤ ·) l with hsdef
  set h := ((l.length : ℚ) - 1) * q with hhdef
  have hh0 : 0 ≤ h := mul_nonneg (by linarith) hq0
  have hhn : h ≤ (l.length : ℚ) - 1 := by
    calc h ≤ ((l.length : ℚ) - 1) * 1 := by
          apply mul_le_mul_of_nonneg_left hq1
          linarith
      _ = (l.length : ℚ) - 1 := mul_one _
  set i := (Int.floor h).toNat with hidef
  have hile : (i : ℚ) ≤ h := floor_toNat_le hh0
  have hlt : h < (i : ℚ) + 1 := lt_floor_toNat_add_one hh0
  have hin : i < s.length := by
    rw [hslen]
    have hlt2 : (i : ℚ) < (l.length : ℚ) := by linarith
    exact_mod_cast hlt2
  have hhead : s.getD 0 0 ≤ s.getD i 0 := sorted_getD_mono hsorted (Nat.zero_le i) hin
  by_cases hi1 : i + 1 < s.length
  · have hmono : s.getD i 0 ≤ s.getD (i + 1) 0 := sorted_getD_mono hsorted (by omega) hi1
    have hprod : 0 ≤ (h - (i : ℚ)) * (s.getD (i + 1) 0 - s.getD i 0) :=
      mul_nonneg (by linarith) (by linarith)
    linarith
  · have hieq : (i : ℚ) = h := by
      have h1 : i + 1 = s.length := by omega
      have h2 : (i : ℚ) + 1 = (l.length : ℚ) := by
        rw [← hslen]
        exact_mod_cast congrArg (fun m : ℕ => (m : ℚ)) h1
      linarith
    have hf : h - (i : ℚ) = 0 := by linarith
    rw [hf, zero_mul, add_zero]
    exact hhead


/-- The interpolated quantile is at most c once the count k of sample
values at most c satisfies (n - 1) q + 1 <= k: the interpolation then
happens between order statistics that are both at most c. -/
lemma quantileQ_le_of_count (l : List ℚ) (q : ℚ) (c : ℚ) (hl : l ≠ []) (hq0 : 0 ≤ q)
    (hk : ((l.length : ℚ) - 1) * q + 1 ≤ (l.countP (fun x => decide (x ≤ c)) : ℚ)) :
    quantileQ l q ≤ c := by
  have hsorted := List.sorted_insertionSort (· ≤ ·) l
  have hcount : (List.insertionSort (· ≤ ·) l).countP (fun x => decide (x ≤ c)) =
      l.countP (fun x => decide (x ≤ c)) := (List.perm_insertionSort (· ≤ ·) l).countP_eq _
  have hn1 : 1 ≤ l.length := List.length_pos.mpr hl
  have hnq : (1 : ℚ) ≤ (l.length : ℚ) := by exact_mod_cast hn1
  unfold quantileQ
  dsimp only
  set s := List.insertionSort (· ≤ ·) l with hsdef
  set h := ((l.length : ℚ) - 1) * q with hhdef
  set k := l.countP (fun x => decide (x ≤ c)) with hkdef
  have hh0 : 0 ≤ h := mul_nonneg (by linarith) hq0
  set i := (Int.floor h).toNat with hidef
  have hile : (i : ℚ) ≤ h := floor_toNat_le hh0
  have hlt : h < (i : ℚ) + 1 := lt_floor_toNat_add_one hh0
  have hik : i < k := by
    have : (i : ℚ) < (k : ℚ) := by linarith
    exact_mod_cast this
  have hsi : s.getD i 0 ≤ c := sorted_prefix_le hsorted (by rw [hcount]; exact hik)
  by_cases hf : h - (i : ℚ) = 0
  · rw [hf, zero_mul, add_zero]
    exact hsi
  · have hfpos : 0 < h - (i : ℚ) := lt_of_le_of_ne (by linarith) (Ne.symm hf)
    have hik1 : i + 1 < k := by
      have : ((i : ℚ) + 1) < (k : ℚ) := by linarith
      exact_mod_cast this
    have hsi1 : s.getD (i + 1) 0 ≤ c := sorted_prefix_le hsorted (by rw [hcount]; exact hik1)
    have hfle : h - (i : ℚ) ≤ 1 := by linarith
    nlinarith [mul_nonneg (by linarith : (0 : ℚ) ≤ 1 - (h - (i : ℚ)))
        (by linarith : (0 : ℚ) ≤ c - s.getD i 0),
      mul_nonneg (by linarith : (0 : ℚ) ≤ h - (i : ℚ))
        (by linarith : (0 : ℚ) ≤ c - s.getD (i + 1) 0)]


/-- The interpolated quantile is monotone in the level. -/
lemma quantileQ_mono (l : List ℚ) (q1 q2 : ℚ) (hl : l ≠ []) (hq0 : 0 ≤ q1) (hq12 : q1 ≤ q2)
    (hq1 : q2 ≤ 1) : quantileQ l q1 ≤ quantileQ l q2 := by
  have hsorted := List.sorted_insertionSort (· ≤ ·) l
  have hslen : (List.insertionSort (· ≤ ·) l).length = l.length :=
    (List.perm_insertionSort (· ≤ ·) l).length_eq
  have hn1 : 1 ≤ l.length := List.length_pos.mpr hl
  have hnq : (1 : ℚ) ≤ (l.length : ℚ) := by exact_mod_cast hn1
  unfold quantileQ
  dsimp only
  set s := List.insertionSort (· ≤ ·) l with hsdef
  set h1 := ((l.length : ℚ) - 1) * q1 with hh1def
  set h2 := ((l.length : ℚ) - 1) * q2 with hh2def
  have hh12 : h1 ≤ h2 := by
    apply mul_le_mul_of_nonneg_left hq12
    linarith
  have hh10 : 0 ≤ h1 := mul_nonneg (by linarith) hq0
  have hh20 : 0 ≤ h2 := le_trans hh10 hh12
  have hh2n : h2 ≤ (l.length : ℚ) - 1 := by
    calc h2 ≤ ((l.length : ℚ) - 1) * 1 := by
          apply mul_le_mul_of_nonneg_left hq1
          linarith
      _ = (l.length : ℚ) - 1 := mul_one _
  set i1 := (Int.floor h1).toNat with hi1def
  set i2 := (Int.floor h2).toNat with hi2def
  have hi1le : (i1 : ℚ) ≤ h1 := floor_toNat_le hh10
  have hi1lt : h1 < (i1 : ℚ) + 1 := lt_floor_toNat_add_one hh10
  have hi2le : (i2 : ℚ) ≤ h2 := floor_toNat_le hh20
  have hi2lt : h2 < (i2 : ℚ) + 1 := lt_floor_toNat_add_one hh20
  have hi2n : i2 < s.length := by
    rw [hslen]
    have hc : (i2 : ℚ) < (l.length : ℚ) := by linarith
    exact_mod_cast hc
  have hi12 : i1 ≤ i2 := Int.toNat_le_toNat (Int.floor_le_floor hh12)
  rcases Nat.lt_or_ge i1 i2 with hlt | hge
  · -- i1 < i2: chain through s[i1+1] and s[i2]
    have hi11n : i1 + 1 < s.length := by omega
    have hAB : s.getD i1 0 ≤ s.getD (i1 + 1) 0 := sorted_getD_mono hsorted (by omega) hi11n
    have hstep1 : s.getD i1 0 + (h1 - (i1 : ℚ)) * (s.getD (i1 + 1) 0 - s.getD i1 0) ≤
        s.getD (i1 + 1) 0 := by
      have hprod : 0 ≤ (1 - (h1 - (i1 : ℚ))) * (s.getD (i1 + 1) 0 - s.getD i1 0) :=
        mul_nonneg (by linarith) (by linarith)
      nlinarith [hprod]
    have hstep2 : s.getD (i1 + 1) 0 ≤ s.getD i2 0 := sorted_getD_mono hsorted (by omega) hi2n
    have hstep3 : s.getD i2 0 ≤ s.getD i2 0 + (h2 - (i2 : ℚ)) * (s.getD (i2 + 1) 0 - s.getD i2 0) := by
      by_cases hi2b : i2 + 1 < s.length
      · have hmono2 : s.getD i2 0 ≤ s.getD (i2 + 1) 0 := sorted_getD_mono hsorted (by omega) hi2b
        have hprod : 0 ≤ (h2 - (i2 : ℚ)) * (s.getD (i2 + 1) 0 - s.getD i2 0) :=
          mul_nonneg (by linarith) (by linarith)
        linarith
      · have h1eq : i2 + 1 = s.length := by omega
        have h2eq : (i2 : ℚ) + 1 = (l.length : ℚ) := by
          rw [← hslen]
          exact_mod_cast congrArg (fun m : ℕ => (m : ℚ)) h1eq
        have hf2 : h2 - (i2 : ℚ) = 0 := by linarith
        rw [hf2, zero_mul]
        linarith
    linarith
  · -- i1 = i2
    have hi : i2 = i1 := by omega
    rw [hi]
    by_cases hi1b : i1 + 1 < s.length
    · have hmono : s.getD i1 0 ≤ s.getD (i1 + 1) 0 := sorted_getD_mono hsorted (by omega) hi1b
      have hprod : 0 ≤ (h2 - h1) * (s.getD (i1 + 1) 0 - s.getD i1 0) :=
        mul_nonneg (by linarith) (by linarith)
      nlinarith [hprod]
    · have hi1n : i1 < s.length := by omega
      have h1eq : i1 + 1 = s.length := by omega
      have h2eq : (i1 : ℚ) + 1 = (l.length : ℚ) := by
        rw [← hslen]
        exact_mod_cast congrArg (fun m : ℕ => (m : ℚ)) h1eq
      have hfe : h1 = h2 := by
        have hle1 : h2 ≤ (i1 : ℚ) := by linarith
        linarith
      rw [hfe]


/-- A mean of values bounded by c is bounded by c. -/
lemma meanQ_le_of_forall (A : List ℚ) (hA : A ≠ []) (c : ℚ) (h : ∀ x ∈ A, x ≤ c) :
    meanQ A ≤ c := by
  unfold meanQ
  have hlen : 0 < (A.length : ℚ) := by
    have : 0 < A.length := List.length_pos.mpr hA
    exact_mod_cast this
  rw [div_le_iff₀ hlen]
  have := List.sum_le_card_nsmul A c h
  rw [nsmul_eq_mul] at this
  linarith


/-- Splitting a threshold filter at a lower threshold: lengths and sums
decompose. -/
lemma filter_split_sum_len (l : List ℚ) (v1 v2 : ℚ) (h12 : v1 ≤ v2) :
    (l.filter (fun x => x ≤ v2)).length =
      (l.filter (fun x => x ≤ v1)).length +
      (l.filter (fun x => decide (v1 < x) && decide (x ≤ v2))).length ∧
    (l.filter (fun x => x ≤ v2)).sum =
      (l.filter (fun x => x ≤ v1)).sum +
      (l.filter (fun x => decide (v1 < x) && decide (x ≤ v2))).sum := by
  induction l with
  | nil => simp
  | cons x xs ih =>
      rcases ih with ⟨ih1, ih2⟩
      by_cases h1 : x ≤ v1
      · have h2 : x ≤ v2 := le_trans h1 h12
        have h3 : (decide (v1 < x) && decide (x ≤ v2)) = false := by
          simp [not_lt.mpr h1]
        simp only [List.filter_cons, h3]
        rw [if_pos (by simpa using h2), if_pos (by simpa using h1), if_neg (by simp)]
        constructor
        · simp only [List.length_cons, ih1]
          omega
        · simp only [List.sum_cons, ih2]
          ring
      · by_cases h2 : x ≤ v2
        · have h3 : (decide (v1 < x) && decide (x ≤ v2)) = true := by
            simp [not_le.mp h1, h2]
          simp only [List.filter_cons, h3]
          rw [if_pos (by simpa using h2), if_neg (by simpa using h1), if_pos trivial]
          constructor
          · simp only [List.length_cons, ih1]
            omega
          · simp only [List.sum_cons, ih2]
            ring
        · have h3 : (decide (v1 < x) && decide (x ≤ v2)) = false := by simp [h2]
          simp only [List.filter_cons, h3]
          rw [if_neg (by simpa using h2), if_neg (by simpa using h1), if_neg (by simp)]
          exact ⟨ih1, ih2⟩


/-- Means over nested threshold filters are monotone in the threshold:
the extra elements all exceed the lower threshold, hence the lower
mean. -/
lemma meanQ_filter_mono (l : List ℚ) (v1 v2 : ℚ) (h12 : v1 ≤ v2)
    (hne : l.filter (fun x => x ≤ v1) ≠ []) :
    meanQ (l.filter (fun x => x ≤ v1)) ≤ meanQ (l.filter (fun x => x ≤ v2)) := by
  obtain ⟨hlen, hsum⟩ := filter_split_sum_len l v1 v2 h12
  set A := l.filter (fun x => x ≤ v1) with hA
  set E := l.filter (fun x => decide (v1 < x) && decide (x ≤ v2)) with hE
  set B := l.filter (fun x => x ≤ v2) with hB
  have hApos : 0 < A.length := List.length_pos.mpr hne
  have hAq : (0 : ℚ) < (A.length : ℚ) := by exact_mod_cast hApos
  have hAle : ∀ x ∈ A, x ≤ v1 := fun x hx => by
    have hm := (List.mem_filter.mp hx).2
    simpa using hm
  have hEge : ∀ x ∈ E, v1 ≤ x := fun x hx => by
    have hm := (List.mem_filter.mp hx).2
    simp only [Bool.and_eq_true, decide_eq_true_eq] at hm
    exact le_of_lt hm.1
  have hsA : A.sum ≤ (A.length : ℚ) * v1 := by
    have hs := List.sum_le_card_nsmul A v1 hAle
    rw [nsmul_eq_mul] at hs
    linarith
  have hsE : (E.length : ℚ) * v1 ≤ E.sum := by
    have hs := List.card_nsmul_le_sum E v1 hEge
    rw [nsmul_eq_mul] at hs
    linarith
  have hEnn : (0 : ℚ) ≤ (E.length : ℚ) := by positivity
  unfold meanQ
  rw [hsum, hlen]
  push_cast
  rw [div_le_div_iff₀ hAq (by linarith)]
  nlinarith [mul_le_mul_of_nonneg_right hsA hEnn,
    mul_le_mul_of_nonneg_right hsE (le_of_lt hAq)]


/-- The pandas mean of a NaN-free float list is the exact rational
mean. -/
lemma fmean_map_fin (A : List ℚ) (hA : A ≠ []) : fmean (A.map F.fin) = .fin (meanQ A) := by
  unfold fmean
  rw [List.filter_eq_self.mpr (by simp [F.isNan])]
  have hlen : (A.map F.fin).length = A.length := List.length_map _ _
  have hne : ¬ (A.map F.fin).length = 0 := by
    rw [hlen]
    have hp := List.length_pos.mpr hA
    omega
  rw [if_neg hne, foldl_fadd_fin, zero_add, hlen]
  have hq : ((A.length : ℚ)) ≠ 0 := by
    have : 0 < A.length := List.length_pos.mpr hA
    positivity
  simp [F.div, hq, meanQ]


/-- The CVaR tail set is never empty: the sample minimum is at most the
interpolated quantile. -/
lemma filter_quantile_ne_nil (l : List ℚ) (q : ℚ) (hl : l ≠ []) (hq0 : 0 ≤ q) (hq1 : q ≤ 1) :
    l.filter (fun r => r ≤ quantileQ l q) ≠ [] := by
  have hhead := quantileQ_ge_head l q hl hq0 hq1
  have hsne : List.insertionSort (· ≤ ·) l ≠ [] := by
    intro h
    apply hl
    have hlen := (List.perm_insertionSort (· ≤ ·) l).length_eq
    rw [h] at hlen
    exact List.length_eq_zero.mp hlen.symm
  have hmem : (List.insertionSort (· ≤ ·) l).getD 0 0 ∈ l := by
    have hm : (List.insertionSort (· ≤ ·) l).getD 0 0 ∈ List.insertionSort (· ≤ ·) l := by
      cases hc : List.insertionSort (· ≤ ·) l with
      | nil => exact absurd hc hsne
      | cons a as => simp [hc, List.getD_cons_zero]
    exact (List.perm_insertionSort (· ≤ ·) l).subset hm
  intro hemp
  rw [List.filter_eq_nil_iff] at hemp
  exact hemp _ hmem (by simpa using hhead)


/-- C4 (amended): for every non-empty return series the code satisfies
CVaR(95) <= VaR(95) and CVaR(99) <= CVaR(95) (both CVaRs are finite
float values); and VaR(95) <= 0 under the corrected sufficient
condition that the count k of nonpositive returns satisfies
(n - 1) / 20 + 1 <= k - not merely when one return is negative. -/
theorem forward_risk_orderings (sqrtq : ℚ → ℚ) (returns : List ℚ) (hl : returns ≠ []) :
    (calculate_forward_risk_metrics sqrtq returns).elim False fun m =>
      (∃ c95 c99 : ℚ, m.cvar95 = .fin c95 ∧ m.cvar99 = .fin c99 ∧
        c95 ≤ m.var95 ∧ c99 ≤ c95) ∧
      (((returns.length : ℚ) - 1) / 20 + 1 ≤
          ((returns.filter (fun r => r ≤ 0)).length : ℚ) →
        m.var95 ≤ 0) := by
  have hlen0 : ¬ returns.length = 0 := fun h => hl (List.length_eq_zero.mp h)
  unfold calculate_forward_risk_metrics
  rw [if_neg hlen0]
  simp only [Option.elim]
  refine ⟨⟨meanQ (returns.filter (fun r => r ≤ quantileQ returns (1 - 95 / 100))),
    meanQ (returns.filter (fun r => r ≤ quantileQ returns (1 - 99 / 100))),
    fmean_map_fin _ (filter_quantile_ne_nil returns (1 - 95 / 100) hl (by norm_num) (by norm_num)),
    fmean_map_fin _ (filter_quantile_ne_nil returns (1 - 99 / 100) hl (by norm_num) (by norm_num)),
    ?_, ?_⟩, ?_⟩
  · refine meanQ_le_of_forall _
      (filter_quantile_ne_nil returns (1 - 95 / 100) hl (by norm_num) (by norm_num)) _
      (fun x hx => ?_)
    simpa using (List.mem_filter.mp hx).2
  · exact meanQ_filter_mono returns _ _
      (quantileQ_mono returns (1 - 99 / 100) (1 - 95 / 100) hl (by norm_num) (by norm_num)
        (by norm_num))
      (filter_quantile_ne_nil returns (1 - 99 / 100) hl (by norm_num) (by norm_num))
  · intro hcount
    apply quantileQ_le_of_count returns (1 - 95 / 100) 0 hl (by norm_num)
    rw [List.countP_eq_length_filter]
    calc ((returns.length : ℚ) - 1) * (1 - 95 / 100) + 1
        = ((returns.length : ℚ) - 1) / 20 + 1 := by ring
      _ ≤ ((returns.filter (fun r => r ≤ 0)).length : ℚ) := hcount


/-- C4 (counterexample): the series [-1%, +100%] contains a negative
daily return, yet VaR(95%) - the interpolated 5% quantile - equals
81/2000 > 0, refuting `VaR(95) <= 0 whenever any return is negative`
(and with it the chained claim `CVaR(95) <= VaR(95) <= 0`). -/
theorem var95_positive_despite_negative_return :
    (calculate_forward_risk_metrics (fun q => q) [-(1 / 100), 1]).elim False fun m =>
      m.var95 = 81 / 2000 ∧ ¬ m.var95 ≤ 0 := by
  have hfl : Int.floor ((1 : ℚ) / 20) = 0 := by
    rw [Int.floor_eq_iff]
    norm_num
  norm_num [calculate_forward_risk_metrics, quantileQ, List.insertionSort, List.orderedInsert,
    Option.elim, hfl, List.getD]


/-- C4 (witness): the amended statement at the concrete one-element
series [-1%]: both CVaRs are finite and ordered below VaR, and the
count condition (0/20 + 1 <= 1) triggers VaR(95) <= 0. -/
theorem forward_risk_orderings_witness :
    (calculate_forward_risk_metrics (fun q => q) [-(1 / 100)]).elim False fun m =>
      (∃ c95 c99 : ℚ, m.cvar95 = .fin c95 ∧ m.cvar99 = .fin c99 ∧
        c95 ≤ m.var95 ∧ c99 ≤ c95) ∧
      (((([-(1 / 100)] : List ℚ).length : ℚ) - 1) / 20 + 1 ≤
          ((([-(1 / 100)] : List ℚ).filter (fun r => r ≤ 0)).length : ℚ) →
        m.var95 ≤ 0) :=
  forward_risk_orderings (fun q => q) [-(1 / 100)] (by simp)
